import Mathlib

/-!
Verification of the rule-evaluation engine of `scripts/generate.mjs`
(rails-security-pr-digest).

The engine is the pure function `scoreOne({title, body, labels, files}, rules)`
together with the configuration loader `readRules()` and the helper
`compileWeightedRegexMap(obj)`.

Modelling choices (shallow embedding):
* JavaScript regular-expression matching is abstracted: `new RegExp(p).test(s)`
  is modelled by an arbitrary parameter `test : String → String → Bool`
  (the source builds a fresh `RegExp` with no flags on every call, so `.test`
  is a pure boolean function of the pattern text and the subject string).
  For the fallible model (`new RegExp(p)` throws on malformed pattern text)
  a second parameter `valid : String → Bool` says which pattern strings
  compile; compilation of an invalid pattern raises, modelled with `Except`.
* JavaScript numbers carried by the rule file are modelled as `Option Int`:
  `some n` is an ordinary numeric value, `none` is a value whose `Number(...)`
  coercion is `NaN` (unparsable).  `Number(x) || 0` is `numOr0`; for the
  truthiness guards `if (w)` / `if (bonus)` both `NaN` and `0` are falsy,
  which coincides with guarding on `numOr0 _ ≠ 0`.
* JavaScript objects used as weight maps are modelled as association lists
  `List (String × Option Int)`: `Object.entries` iterates the list,
  `lw[l] ?? 0` is `List.lookup` with default.
* Absent fields / `??` defaulting are modelled with `Option` and
  `Option.getD`, exactly where the source guards them.
-/

namespace RailsSecurityDigest

/-- JS `Number(x) || 0`: an unparsable value (`Number` gives `NaN`, modelled
as `none`) coerces to `0`; a plain number is itself. -/
def numOr0 : Option Int → Int
  | none => 0
  | some n => n

/-- The `type` discriminator of a hit record pushed by `scoreOne`:
`"label" | "text" | "path" | "guide"`. -/
inductive HitType
  | label
  | text
  | path
  | guide
  deriving DecidableEq

/-- One contribution record pushed onto `hits` by `scoreOne`.  `file` is
`some _` exactly for `path`-kind hits (the source only adds the `file`
property there). -/
structure Hit where
  type : HitType
  what : String
  file : Option String
  w : Int
  deriving DecidableEq

/-- The record returned by `scoreOne`:
`{ adopt, score, strongHit, tags, hits }`.  The absence of a strong-signal
match is encoded, as in the source, by the empty string `""`. -/
structure Decision where
  adopt : Bool
  score : Int
  strongHit : String
  tags : List String
  hits : List Hit
  deriving DecidableEq

/-- `rules.window`: `{ type, value }` (the loader defaults it to
`{ type: "hours", value: 24 }`). -/
structure Window where
  type : String
  value : Option Int
  deriving DecidableEq

/-- `rules.decision`: `{ threshold }`; `threshold` may be absent
(`none`), in which case `scoreOne` uses `?? 8`. -/
structure DecisionCfg where
  threshold : Option Int
  deriving DecidableEq

/-- `rules.strongSignals`: `{ patterns }`; `patterns` may be absent,
`scoreOne` guards it with `?? []`. -/
structure StrongSignals where
  patterns : Option (List String)
  deriving DecidableEq

/-- `rules.scoring`: the three weight maps, each possibly absent (guarded
with `?? {}` at use in `scoreOne`). -/
structure Scoring where
  labelWeights : Option (List (String × Option Int))
  textKeywordWeights : Option (List (String × Option Int))
  pathWeights : Option (List (String × Option Int))
  deriving DecidableEq

/-- One entry of `rules.securityGuideMapping`:
`{ tag, scoreBonus, keywords, paths }` with every field but `tag` possibly
absent (`m.scoreBonus ?? 0`, `m.keywords ?? []`, `m.paths ?? []`). -/
structure GuideMapping where
  tag : String
  scoreBonus : Option Int
  keywords : Option (List String)
  paths : Option (List String)
  deriving DecidableEq

/-- The ruleset after `readRules()`: the five top-level sections are present
(the loader's `??=` assignments guarantee it), nested fields may still be
absent.  `securityGuideMapping` keeps its `Option` type because `scoreOne`
re-guards it with `?? []` on its own. -/
structure Rules where
  window : Window
  decision : DecisionCfg
  strongSignals : StrongSignals
  scoring : Scoring
  securityGuideMapping : Option (List GuideMapping)
  deriving DecidableEq

/-- The raw YAML document (`yaml.load(raw) ?? {}`): every one of the five
top-level sections may be absent. -/
structure RawRules where
  window : Option Window
  decision : Option DecisionCfg
  strongSignals : Option StrongSignals
  scoring : Option Scoring
  securityGuideMapping : Option (List GuideMapping)
  deriving DecidableEq

/-- `readRules()` minus the file I/O: the five `??=` defaulting assignments
of `generate.mjs` lines 13–17. -/
def readRules (raw : RawRules) : Rules :=
  { window := raw.window.getD ⟨"hours", some 24⟩
    decision := raw.decision.getD ⟨some 8⟩
    strongSignals := raw.strongSignals.getD ⟨some []⟩
    scoring := raw.scoring.getD ⟨some [], some [], some []⟩
    securityGuideMapping := some (raw.securityGuideMapping.getD []) }

/-- A candidate item as destructured by `scoreOne`:
`{ title, body, labels, files }`; `title` and `body` may be absent. -/
structure Item where
  title : Option String
  body : Option String
  labels : List String
  files : List String
  deriving DecidableEq

/-- Line 86: combined text = title, two newlines, body,
with absent fields defaulted to the empty string. -/
def combinedText (item : Item) : String :=
  item.title.getD "" ++ "\n\n" ++ item.body.getD ""

/-- One entry of the array built by `compileWeightedRegexMap`: the pattern
source text and the coerced weight.  The compiled `re` field is not stored;
matching `re.test s` is the abstract `test pattern s`. -/
structure WeightedRe where
  pattern : String
  weight : Int
  deriving DecidableEq

/-- `compileWeightedRegexMap(obj)` (lines 29–35):
`Object.entries(obj ?? {}).map(([pattern, weight]) => ({ pattern, weight: Number(weight) || 0 }))`. -/
def compileWeightedRegexMap (obj : Option (List (String × Option Int))) : List WeightedRe :=
  (obj.getD []).map fun pw => ⟨pw.1, numOr0 pw.2⟩

/-- Line 104: `Number(lw[l] ?? 0)` — absent label defaults to weight `0`,
an unparsable weight behaves as `0` (falsy either way under `if (w)`). -/
def labelWeight (lw : List (String × Option Int)) (l : String) : Int :=
  numOr0 ((List.lookup l lw).getD (some 0))

/-- Loop body of lines 103–109: a label with truthy weight adds the weight
to the running score and pushes a `label` hit. -/
def labelStep (lw : List (String × Option Int)) (acc : Int × List Hit) (l : String) :
    Int × List Hit :=
  let w := labelWeight lw l
  if w ≠ 0 then (acc.1 + w, acc.2 ++ [⟨HitType.label, l, none, w⟩]) else acc

/-- Loop body of lines 112–117: one boolean `re.test(text)` per compiled
entry; a match adds the weight and pushes one `text` hit. -/
def textStep (test : String → String → Bool) (text : String) (acc : Int × List Hit)
    (r : WeightedRe) : Int × List Hit :=
  if test r.pattern text then
    (acc.1 + r.weight, acc.2 ++ [⟨HitType.text, r.pattern, none, r.weight⟩])
  else acc

/-- Inner loop body of lines 121–126: the same compiled entry tested against
one file; a match adds the weight and pushes one `path` hit carrying the file. -/
def pathFileStep (test : String → String → Bool) (r : WeightedRe) (acc : Int × List Hit)
    (f : String) : Int × List Hit :=
  if test r.pattern f then
    (acc.1 + r.weight, acc.2 ++ [⟨HitType.path, r.pattern, some f, r.weight⟩])
  else acc

/-- Outer loop body of lines 120–127: each compiled path entry is tested
against every file of the item independently. -/
def pathStep (test : String → String → Bool) (files : List String) (acc : Int × List Hit)
    (r : WeightedRe) : Int × List Hit :=
  files.foldl (pathFileStep test r) acc

/-- Lines 134–137: `kwHit || pHit` for one guide-mapping entry. -/
def guideFires (test : String → String → Bool) (text : String) (files : List String)
    (m : GuideMapping) : Bool :=
  let kwHit := (m.keywords.getD []).any fun k => test k text
  let pHit := files.any fun f => (m.paths.getD []).any fun p => test p f
  kwHit || pHit

/-- Loop body of lines 131–145: a firing entry appends its tag; a truthy
`scoreBonus` additionally adds the bonus and pushes a `guide` hit.
Accumulator: `(tags, score, hits)`. -/
def guideStep (test : String → String → Bool) (text : String) (files : List String)
    (acc : List String × Int × List Hit) (m : GuideMapping) :
    List String × Int × List Hit :=
  let bonus := numOr0 m.scoreBonus
  if guideFires test text files m then
    if bonus ≠ 0 then
      (acc.1 ++ [m.tag], acc.2.1 + bonus, acc.2.2 ++ [⟨HitType.guide, m.tag, none, bonus⟩])
    else
      (acc.1 ++ [m.tag], acc.2.1, acc.2.2)
  else acc

/-- Lines 89–96: scan the strong-signal patterns in order, record the first
one whose regex matches the combined text, `break` there; no match leaves
the initial `""`. -/
def strongScan (test : String → String → Bool) (text : String) : List String → String
  | [] => ""
  | p :: rest => if test p text then p else strongScan test text rest

/-- Line 147: `Number(rules.decision.threshold ?? 8)`. -/
def thresholdOf (rules : Rules) : Int :=
  rules.decision.threshold.getD 8

/-- `scoreOne(item, rules)` (lines 85–151), with regex matching abstracted
by `test`.  All patterns are assumed well-formed here; the fallible variant
`scoreOneE` below models `new RegExp` throwing. -/
def scoreOne (test : String → String → Bool) (item : Item) (rules : Rules) : Decision :=
  let text := combinedText item
  let strongHit := strongScan test text (rules.strongSignals.patterns.getD [])
  let s1 := item.labels.foldl (labelStep (rules.scoring.labelWeights.getD [])) (0, [])
  let s2 := (compileWeightedRegexMap rules.scoring.textKeywordWeights).foldl
    (textStep test text) s1
  let s3 := (compileWeightedRegexMap rules.scoring.pathWeights).foldl
    (pathStep test item.files) s2
  let g := (rules.securityGuideMapping.getD []).foldl
    (guideStep test text item.files) ([], s3.1, s3.2)
  { adopt := (strongHit != "") || decide (thresholdOf rules ≤ g.2.1)
    score := g.2.1
    strongHit := strongHit
    tags := g.1
    hits := g.2.2 }

/-! ### Closed-form characterizations of the four contribution phases -/

/-- The `label` hits produced by the loop of lines 103–109. -/
def labelHitsOf (lw : List (String × Option Int)) (labels : List String) : List Hit :=
  labels.filterMap fun l =>
    let w := labelWeight lw l
    if w ≠ 0 then some ⟨HitType.label, l, none, w⟩ else none

/-- The `text` hits produced by the loop of lines 112–117. -/
def textHitsOf (test : String → String → Bool) (text : String) (rs : List WeightedRe) :
    List Hit :=
  rs.filterMap fun r =>
    if test r.pattern text then some ⟨HitType.text, r.pattern, none, r.weight⟩ else none

/-- The `path` hits one compiled entry produces: one hit per matching file,
duplicates in `files` included. -/
def pathHitsOfOne (test : String → String → Bool) (files : List String) (r : WeightedRe) :
    List Hit :=
  (files.filter fun f => test r.pattern f).map fun f =>
    ⟨HitType.path, r.pattern, some f, r.weight⟩

/-- The `path` hits produced by the nested loops of lines 120–127. -/
def pathHitsOf (test : String → String → Bool) (files : List String) (rs : List WeightedRe) :
    List Hit :=
  rs.flatMap (pathHitsOfOne test files)

/-- The `guide` hits produced by the loop of lines 131–145. -/
def guideHitsOf (test : String → String → Bool) (text : String) (files : List String)
    (ms : List GuideMapping) : List Hit :=
  ms.filterMap fun m =>
    if guideFires test text files m then
      if numOr0 m.scoreBonus ≠ 0 then
        some ⟨HitType.guide, m.tag, none, numOr0 m.scoreBonus⟩
      else none
    else none

/-- The tags collected by the loop of lines 131–145. -/
def guideTagsOf (test : String → String → Bool) (text : String) (files : List String)
    (ms : List GuideMapping) : List String :=
  ms.filterMap fun m => if guideFires test text files m then some m.tag else none

/-- Sum of the `w` fields of a hit trail. -/
def sumW (hs : List Hit) : Int :=
  (hs.map fun h => h.w).sum

/-- The full hit trail of one evaluation, in discovery order:
labels, then text, then path, then guide. -/
def hitsOf (test : String → String → Bool) (item : Item) (rules : Rules) : List Hit :=
  labelHitsOf (rules.scoring.labelWeights.getD []) item.labels
    ++ textHitsOf test (combinedText item) (compileWeightedRegexMap rules.scoring.textKeywordWeights)
    ++ pathHitsOf test item.files (compileWeightedRegexMap rules.scoring.pathWeights)
    ++ guideHitsOf test (combinedText item) item.files (rules.securityGuideMapping.getD [])

/-! ### Fallible model: `new RegExp(p)` throws on malformed pattern text

`valid p` says whether the pattern text `p` compiles.  An exception is the
`Except.error ()` value; it propagates out of `scoreOne` and aborts the run
(in the source, `main().catch` then exits the process, writing no output). -/

/-- Lines 90–96 with compilation made explicit: each scanned pattern is
compiled (`new RegExp(p)`, which throws on malformed text) before it is
tested; the loop `break`s at the first match, so later patterns are never
compiled. -/
def strongScanE (valid : String → Bool) (test : String → String → Bool) (text : String) :
    List String → Except Unit String
  | [] => Except.ok ""
  | p :: rest =>
    if valid p then
      if test p text then Except.ok p else strongScanE valid test text rest
    else Except.error ()

/-- Lines 29–35 with compilation made explicit: every entry of the map is
compiled (the `.map` is eager), so any malformed entry throws. -/
def compileWeightedRegexMapE (valid : String → Bool)
    (obj : Option (List (String × Option Int))) : Except Unit (List WeightedRe) :=
  (obj.getD []).mapM fun pw =>
    if valid pw.1 then Except.ok (⟨pw.1, numOr0 pw.2⟩ : WeightedRe)
    else (Except.error () : Except Unit WeightedRe)

/-- Loop body of lines 131–145 with compilation made explicit: `kwRes` and
`pRes` are built eagerly for every entry (lines 134–135), so a malformed
keyword or path pattern throws; the rest is `guideStep`. -/
def guideStepE (valid : String → Bool) (test : String → String → Bool) (text : String)
    (files : List String) (acc : List String × Int × List Hit) (m : GuideMapping) :
    Except Unit (List String × Int × List Hit) := do
  let _ ← (m.keywords.getD []).mapM fun k =>
    if valid k then Except.ok k else (Except.error () : Except Unit String)
  let _ ← (m.paths.getD []).mapM fun p =>
    if valid p then Except.ok p else (Except.error () : Except Unit String)
  pure (guideStep test text files acc m)

/-- `scoreOne` with pattern compilation made explicit: regexes are compiled
lazily, inside the evaluation of each item, in source order (strong signals,
then — after the label loop, which compiles nothing — text keywords, path
weights, and the guide mappings). -/
def scoreOneE (valid : String → Bool) (test : String → String → Bool) (item : Item)
    (rules : Rules) : Except Unit Decision := do
  let text := combinedText item
  let strongHit ← strongScanE valid test text (rules.strongSignals.patterns.getD [])
  let s1 := item.labels.foldl (labelStep (rules.scoring.labelWeights.getD [])) (0, [])
  let ctw ← compileWeightedRegexMapE valid rules.scoring.textKeywordWeights
  let s2 := ctw.foldl (textStep test text) s1
  let cpw ← compileWeightedRegexMapE valid rules.scoring.pathWeights
  let s3 := cpw.foldl (pathStep test item.files) s2
  let g ← (rules.securityGuideMapping.getD []).foldlM
    (guideStepE valid test text item.files) ([], s3.1, s3.2)
  pure { adopt := (strongHit != "") || decide (thresholdOf rules ≤ g.2.1)
         score := g.2.1
         strongHit := strongHit
         tags := g.1
         hits := g.2.2 }

/-- The scoring loop of `main` (lines 224–252), window filtering and
retrieval abstracted away: evaluate each candidate item in order, keep the
adopted decisions; an exception from `scoreOne` aborts the whole run with
no output (lines 263–266: `main().catch` → `process.exit(1)` before the
single `writeFileSync`). -/
def run (valid : String → Bool) (test : String → String → Bool) (rules : Rules) :
    List Item → Except Unit (List Decision)
  | [] => Except.ok []
  | item :: rest => do
    let d ← scoreOneE valid test item rules
    let ds ← run valid test rules rest
    pure (if d.adopt then d :: ds else ds)

/-- All pattern text appearing anywhere in the ruleset compiles. -/
def allValid (valid : String → Bool) (rules : Rules) : Prop :=
  (∀ p ∈ rules.strongSignals.patterns.getD [], valid p)
  ∧ (∀ pw ∈ rules.scoring.textKeywordWeights.getD [], valid pw.1)
  ∧ (∀ pw ∈ rules.scoring.pathWeights.getD [], valid pw.1)
  ∧ (∀ m ∈ rules.securityGuideMapping.getD [],
      (∀ k ∈ m.keywords.getD [], valid k) ∧ (∀ p ∈ m.paths.getD [], valid p))

/-! ### Concrete instances used to exercise the theorems -/

/-- A matcher that matches every pattern against every subject. -/
def testT : String → String → Bool := fun _ _ => true

/-- A matcher that never matches. -/
def testF : String → String → Bool := fun _ _ => false

/-- A matcher under which exactly the pattern `"b"` matches. -/
def testEqB : String → String → Bool := fun p _ => p == "b"

/-- A matcher under which exactly the empty pattern matches — the behavior
JS gives the empty regular expression, which matches every string. -/
def testEmptyPat : String → String → Bool := fun p _ => p == ""

/-- Every pattern compiles except the malformed `"("`. -/
def validNoParen : String → Bool := fun p => p != "("

/-- Every pattern compiles except the malformed `"["`. -/
def validNoBracket : String → Bool := fun p => p != "["

/-- A sample candidate item (note the duplicated file path). -/
def itemW : Item :=
  ⟨some "Fix issue", some "CVE-2024-1111", ["security"], ["lib/a.rb", "lib/a.rb"]⟩

/-- A sample item carrying two labels. -/
def itemW7 : Item := ⟨some "t", none, ["security", "x"], []⟩

/-- A scoring section with every nested map absent. -/
def scoringEmpty : Scoring := ⟨none, none, none⟩

/-- Ruleset with no strong signals and nothing to score. -/
def rulesEmptySig : Rules :=
  ⟨⟨"hours", some 24⟩, ⟨some 8⟩, ⟨some []⟩, scoringEmpty, none⟩

/-- Ruleset with three strong-signal patterns. -/
def rulesABC : Rules :=
  ⟨⟨"hours", some 24⟩, ⟨some 8⟩, ⟨some ["a", "b", "c"]⟩, scoringEmpty, none⟩

/-- Ruleset whose only strong-signal pattern is the empty string. -/
def rulesEmptyPat : Rules :=
  ⟨⟨"hours", some 24⟩, ⟨some 8⟩, ⟨some [""]⟩, scoringEmpty, none⟩

/-- Ruleset with a zero-weight label, a nonzero label and a zero-weight
text keyword. -/
def rulesZeroW : Rules :=
  ⟨⟨"hours", some 24⟩, ⟨some 8⟩, ⟨some []⟩,
    ⟨some [("security", some 0), ("x", some 2)], some [("CVE", some 0)], none⟩, none⟩

/-- Ruleset whose malformed strong-signal pattern `"("` sits behind a
matching one, so the scan `break`s before ever compiling it. -/
def rulesShadowedBad : Rules :=
  ⟨⟨"hours", some 24⟩, ⟨some 8⟩, ⟨some ["CVE", "("]⟩, scoringEmpty, none⟩

/-- Ruleset with a malformed text-keyword pattern `"["`. -/
def rulesBadText : Rules :=
  ⟨⟨"hours", some 24⟩, ⟨some 8⟩, ⟨some []⟩, ⟨none, some [("[", some 3)], none⟩, none⟩

/-- The raw document in which all five top-level sections are missing. -/
def emptyRaw : RawRules := ⟨none, none, none, none, none⟩

/-- Spec-side definition for the default-equivalence (refinement) claim,
following the spec's words: window `{hours, 24}`, decision threshold `8`,
and every weight map and pattern sequence explicitly empty. -/
def specExplicitEmptyRules : Rules :=
  ⟨⟨"hours", some 24⟩, ⟨some 8⟩, ⟨some []⟩, ⟨some [], some [], some []⟩, some []⟩

theorem sumW_append (a b : List Hit) : sumW (a ++ b) = sumW a + sumW b := by
  simp [sumW]

/-- Generic accumulation lemma: a fold whose step appends `emit x` to the
trail and adds its weight sum to the score. -/
theorem foldl_emit {α : Type} (step : Int × List Hit → α → Int × List Hit)
    (emit : α → List Hit)
    (hstep : ∀ acc x, step acc x = (acc.1 + sumW (emit x), acc.2 ++ emit x)) :
    ∀ (xs : List α) (acc : Int × List Hit),
      xs.foldl step acc = (acc.1 + sumW (xs.flatMap emit), acc.2 ++ xs.flatMap emit) := by
  intro xs
  induction xs with
  | nil => intro acc; simp [sumW]
  | cons x xs ih =>
    intro acc
    simp only [List.foldl_cons, hstep, ih, List.flatMap_cons, sumW_append, List.append_assoc]
    rw [Int.add_assoc]

theorem labelStep_emits (lw : List (String × Option Int)) (acc : Int × List Hit)
    (l : String) :
    labelStep lw acc l
      = (acc.1 + sumW ((labelHitsOf lw [l])), acc.2 ++ labelHitsOf lw [l]) := by
  simp only [labelStep, labelHitsOf, List.filterMap]
  by_cases h : labelWeight lw l ≠ 0 <;> simp [h, sumW]

theorem foldl_labelStep (lw : List (String × Option Int)) (labels : List String)
    (acc : Int × List Hit) :
    labels.foldl (labelStep lw) acc
      = (acc.1 + sumW (labelHitsOf lw labels), acc.2 ++ labelHitsOf lw labels) := by
  have h := foldl_emit (labelStep lw) (fun l => labelHitsOf lw [l])
    (fun acc l => labelStep_emits lw acc l) labels acc
  have hflat : labels.flatMap (fun l => labelHitsOf lw [l]) = labelHitsOf lw labels := by
    simp [labelHitsOf, List.filterMap_eq_flatMap_toList, List.flatMap_singleton]
  rw [h, hflat]

theorem textStep_emits (test : String → String → Bool) (text : String)
    (acc : Int × List Hit) (r : WeightedRe) :
    textStep test text acc r
      = (acc.1 + sumW (textHitsOf test text [r]), acc.2 ++ textHitsOf test text [r]) := by
  simp only [textStep, textHitsOf, List.filterMap]
  by_cases h : test r.pattern text <;> simp [h, sumW]

theorem foldl_textStep (test : String → String → Bool) (text : String)
    (rs : List WeightedRe) (acc : Int × List Hit) :
    rs.foldl (textStep test text) acc
      = (acc.1 + sumW (textHitsOf test text rs), acc.2 ++ textHitsOf test text rs) := by
  have h := foldl_emit (textStep test text) (fun r => textHitsOf test text [r])
    (fun acc r => textStep_emits test text acc r) rs acc
  have hflat : rs.flatMap (fun r => textHitsOf test text [r]) = textHitsOf test text rs := by
    simp [textHitsOf, List.filterMap_eq_flatMap_toList, List.flatMap_singleton]
  rw [h, hflat]

theorem pathFileStep_emits (test : String → String → Bool) (r : WeightedRe)
    (acc : Int × List Hit) (f : String) :
    pathFileStep test r acc f
      = (acc.1 + sumW (pathHitsOfOne test [f] r), acc.2 ++ pathHitsOfOne test [f] r) := by
  simp only [pathFileStep, pathHitsOfOne, List.filter]
  by_cases h : test r.pattern f <;> simp [h, sumW]

theorem pathHitsOfOne_flat (test : String → String → Bool) (files : List String)
    (r : WeightedRe) :
    files.flatMap (fun f => pathHitsOfOne test [f] r) = pathHitsOfOne test files r := by
  induction files with
  | nil => simp [pathHitsOfOne]
  | cons f fs ih =>
    rw [List.flatMap_cons, ih]
    by_cases h : test r.pattern f <;> simp [pathHitsOfOne, List.filter_cons, h]

theorem pathStep_emits (test : String → String → Bool) (files : List String)
    (acc : Int × List Hit) (r : WeightedRe) :
    pathStep test files acc r
      = (acc.1 + sumW (pathHitsOfOne test files r), acc.2 ++ pathHitsOfOne test files r) := by
  have h := foldl_emit (pathFileStep test r) (fun f => pathHitsOfOne test [f] r)
    (fun acc f => pathFileStep_emits test r acc f) files acc
  rw [pathStep, h, pathHitsOfOne_flat]

theorem foldl_pathStep (test : String → String → Bool) (files : List String)
    (rs : List WeightedRe) (acc : Int × List Hit) :
    rs.foldl (pathStep test files) acc
      = (acc.1 + sumW (pathHitsOf test files rs), acc.2 ++ pathHitsOf test files rs) := by
  have h := foldl_emit (pathStep test files) (pathHitsOfOne test files)
    (fun acc r => pathStep_emits test files acc r) rs acc
  rw [h]; rfl

/-- Generic accumulation lemma for the guide loop's triple accumulator. -/
theorem foldl_emit3 {α : Type} (step : List String × Int × List Hit → α → List String × Int × List Hit)
    (emitT : α → List String) (emit : α → List Hit)
    (hstep : ∀ acc x, step acc x
      = (acc.1 ++ emitT x, acc.2.1 + sumW (emit x), acc.2.2 ++ emit x)) :
    ∀ (xs : List α) (acc : List String × Int × List Hit),
      xs.foldl step acc
        = (acc.1 ++ xs.flatMap emitT, acc.2.1 + sumW (xs.flatMap emit),
           acc.2.2 ++ xs.flatMap emit) := by
  intro xs
  induction xs with
  | nil => intro acc; simp [sumW]
  | cons x xs ih =>
    intro acc
    simp only [List.foldl_cons, hstep, ih, List.flatMap_cons, sumW_append, List.append_assoc]
    rw [Int.add_assoc]

theorem guideStep_emits (test : String → String → Bool) (text : String)
    (files : List String) (acc : List String × Int × List Hit) (m : GuideMapping) :
    guideStep test text files acc m
      = (acc.1 ++ guideTagsOf test text files [m],
         acc.2.1 + sumW (guideHitsOf test text files [m]),
         acc.2.2 ++ guideHitsOf test text files [m]) := by
  simp only [guideStep, guideTagsOf, guideHitsOf, List.filterMap]
  by_cases hf : guideFires test text files m
  · by_cases hb : numOr0 m.scoreBonus ≠ 0 <;> simp [hf, hb, sumW]
  · simp [hf, sumW]

theorem foldl_guideStep (test : String → String → Bool) (text : String)
    (files : List String) (ms : List GuideMapping) (acc : List String × Int × List Hit) :
    ms.foldl (guideStep test text files) acc
      = (acc.1 ++ guideTagsOf test text files ms,
         acc.2.1 + sumW (guideHitsOf test text files ms),
         acc.2.2 ++ guideHitsOf test text files ms) := by
  have h := foldl_emit3 (guideStep test text files)
    (fun m => guideTagsOf test text files [m]) (fun m => guideHitsOf test text files [m])
    (fun acc m => guideStep_emits test text files acc m) ms acc
  have ht : ms.flatMap (fun m => guideTagsOf test text files [m])
      = guideTagsOf test text files ms := by
    simp [guideTagsOf, List.filterMap_eq_flatMap_toList, List.flatMap_singleton]
  have hh : ms.flatMap (fun m => guideHitsOf test text files [m])
      = guideHitsOf test text files ms := by
    simp [guideHitsOf, List.filterMap_eq_flatMap_toList, List.flatMap_singleton]
  rw [h, ht, hh]

/-- Closed form of `scoreOne`: the trail is the concatenation of the four
phase trails, the score is its weight sum, tags and strong-signal as scanned. -/
theorem scoreOne_eq (test : String → String → Bool) (item : Item) (rules : Rules) :
    scoreOne test item rules
      = { adopt := (strongScan test (combinedText item)
              (rules.strongSignals.patterns.getD []) != "")
            || decide (thresholdOf rules ≤ sumW (hitsOf test item rules))
          score := sumW (hitsOf test item rules)
          strongHit := strongScan test (combinedText item)
            (rules.strongSignals.patterns.getD [])
          tags := guideTagsOf test (combinedText item) item.files
            (rules.securityGuideMapping.getD [])
          hits := hitsOf test item rules } := by
  simp only [scoreOne, foldl_labelStep, foldl_textStep, foldl_pathStep, foldl_guideStep,
    hitsOf, sumW_append]
  simp

theorem scoreOne_hits (test : String → String → Bool) (item : Item) (rules : Rules) :
    (scoreOne test item rules).hits = hitsOf test item rules := by
  rw [scoreOne_eq]

theorem scoreOne_score (test : String → String → Bool) (item : Item) (rules : Rules) :
    (scoreOne test item rules).score = sumW (hitsOf test item rules) := by
  rw [scoreOne_eq]

theorem scoreOne_strongHit (test : String → String → Bool) (item : Item) (rules : Rules) :
    (scoreOne test item rules).strongHit
      = strongScan test (combinedText item) (rules.strongSignals.patterns.getD []) := by
  rw [scoreOne_eq]

theorem scoreOne_tags (test : String → String → Bool) (item : Item) (rules : Rules) :
    (scoreOne test item rules).tags
      = guideTagsOf test (combinedText item) item.files (rules.securityGuideMapping.getD []) := by
  rw [scoreOne_eq]

theorem scoreOne_adopt (test : String → String → Bool) (item : Item) (rules : Rules) :
    (scoreOne test item rules).adopt
      = (((scoreOne test item rules).strongHit != "")
          || decide (thresholdOf rules ≤ (scoreOne test item rules).score)) := by
  rw [scoreOne_eq]

/-! ### Which hit kinds each phase can produce -/

theorem labelHitsOf_types (lw : List (String × Option Int)) (ls : List String) :
    ∀ h ∈ labelHitsOf lw ls, h.type = HitType.label := by
  intro h hm
  simp only [labelHitsOf, List.mem_filterMap] at hm
  obtain ⟨l, _, he⟩ := hm
  by_cases hc : labelWeight lw l ≠ 0
  · rw [if_pos hc] at he
    cases he
    rfl
  · rw [if_neg hc] at he
    simp at he

theorem textHitsOf_types (test : String → String → Bool) (text : String)
    (rs : List WeightedRe) : ∀ h ∈ textHitsOf test text rs, h.type = HitType.text := by
  intro h hm
  simp only [textHitsOf, List.mem_filterMap] at hm
  obtain ⟨r, _, he⟩ := hm
  by_cases hc : test r.pattern text
  · rw [if_pos hc] at he
    cases he
    rfl
  · rw [if_neg hc] at he
    simp at he

theorem pathHitsOf_types (test : String → String → Bool) (files : List String)
    (rs : List WeightedRe) : ∀ h ∈ pathHitsOf test files rs, h.type = HitType.path := by
  intro h hm
  simp only [pathHitsOf, List.mem_flatMap, pathHitsOfOne, List.mem_map] at hm
  obtain ⟨r, _, f, _, he⟩ := hm
  cases he
  rfl

theorem guideHitsOf_types (test : String → String → Bool) (text : String)
    (files : List String) (ms : List GuideMapping) :
    ∀ h ∈ guideHitsOf test text files ms, h.type = HitType.guide := by
  intro h hm
  simp only [guideHitsOf, List.mem_filterMap] at hm
  obtain ⟨m, _, he⟩ := hm
  by_cases hf : guideFires test text files m
  · rw [if_pos hf] at he
    by_cases hb : numOr0 m.scoreBonus ≠ 0
    · rw [if_pos hb] at he
      cases he
      rfl
    · rw [if_neg hb] at he
      simp at he
  · rw [if_neg hf] at he
    simp at he

theorem filter_type_self {t : HitType} {hs : List Hit}
    (hall : ∀ h ∈ hs, h.type = t) :
    hs.filter (fun h => h.type == t) = hs := by
  rw [List.filter_eq_self]
  intro h hm
  simp [hall h hm]

theorem filter_type_nil {t : HitType} {hs : List Hit}
    (hall : ∀ h ∈ hs, h.type ≠ t) :
    hs.filter (fun h => h.type == t) = [] := by
  rw [List.filter_eq_nil_iff]
  intro h hm
  simp [hall h hm]

theorem hitsOf_filter_label (test : String → String → Bool) (item : Item) (rules : Rules) :
    (hitsOf test item rules).filter (fun h => h.type == HitType.label)
      = labelHitsOf (rules.scoring.labelWeights.getD []) item.labels := by
  simp only [hitsOf, List.filter_append]
  rw [filter_type_self (labelHitsOf_types _ _),
    filter_type_nil (fun h hm => by rw [textHitsOf_types _ _ _ h hm]; intro hc; cases hc),
    filter_type_nil (fun h hm => by rw [pathHitsOf_types _ _ _ h hm]; intro hc; cases hc),
    filter_type_nil (fun h hm => by rw [guideHitsOf_types _ _ _ _ h hm]; intro hc; cases hc)]
  simp

theorem hitsOf_filter_text (test : String → String → Bool) (item : Item) (rules : Rules) :
    (hitsOf test item rules).filter (fun h => h.type == HitType.text)
      = textHitsOf test (combinedText item)
          (compileWeightedRegexMap rules.scoring.textKeywordWeights) := by
  simp only [hitsOf, List.filter_append]
  rw [filter_type_self (textHitsOf_types _ _ _),
    filter_type_nil (fun h hm => by rw [labelHitsOf_types _ _ h hm]; intro hc; cases hc),
    filter_type_nil (fun h hm => by rw [pathHitsOf_types _ _ _ h hm]; intro hc; cases hc),
    filter_type_nil (fun h hm => by rw [guideHitsOf_types _ _ _ _ h hm]; intro hc; cases hc)]
  simp

theorem hitsOf_filter_path (test : String → String → Bool) (item : Item) (rules : Rules) :
    (hitsOf test item rules).filter (fun h => h.type == HitType.path)
      = pathHitsOf test item.files (compileWeightedRegexMap rules.scoring.pathWeights) := by
  simp only [hitsOf, List.filter_append]
  rw [filter_type_self (pathHitsOf_types _ _ _),
    filter_type_nil (fun h hm => by rw [labelHitsOf_types _ _ h hm]; intro hc; cases hc),
    filter_type_nil (fun h hm => by rw [textHitsOf_types _ _ _ h hm]; intro hc; cases hc),
    filter_type_nil (fun h hm => by rw [guideHitsOf_types _ _ _ _ h hm]; intro hc; cases hc)]
  simp

theorem hitsOf_filter_guide (test : String → String → Bool) (item : Item) (rules : Rules) :
    (hitsOf test item rules).filter (fun h => h.type == HitType.guide)
      = guideHitsOf test (combinedText item) item.files
          (rules.securityGuideMapping.getD []) := by
  simp only [hitsOf, List.filter_append]
  rw [filter_type_self (guideHitsOf_types _ _ _ _),
    filter_type_nil (fun h hm => by rw [labelHitsOf_types _ _ h hm]; intro hc; cases hc),
    filter_type_nil (fun h hm => by rw [textHitsOf_types _ _ _ h hm]; intro hc; cases hc),
    filter_type_nil (fun h hm => by rw [pathHitsOf_types _ _ _ h hm]; intro hc; cases hc)]
  simp


theorem strongScanE_ok (valid : String → Bool) (test : String → String → Bool)
    (text : String) (ps : List String) (hv : ∀ p ∈ ps, valid p) :
    strongScanE valid test text ps = Except.ok (strongScan test text ps) := by
  induction ps with
  | nil => rfl
  | cons p rest ih =>
    have hp : valid p := hv p (by simp)
    simp only [strongScanE, strongScan, if_pos hp]
    by_cases ht : test p text
    · simp [ht]
    · simp only [ht, if_neg]
      exact ih fun q hq => hv q (by simp [hq])

theorem mapM_if_ok {α β : Type} (c : α → Bool) (f : α → β) (l : List α)
    (hv : ∀ x ∈ l, c x) :
    (l.mapM fun x => if c x then Except.ok (f x) else (Except.error () : Except Unit β))
      = Except.ok (l.map f) := by
  induction l with
  | nil => rfl
  | cons x xs ih =>
    have hx : c x := hv x (by simp)
    rw [List.mapM_cons]
    simp only [if_pos hx, ih fun y hy => hv y (by simp [hy])]
    rfl

theorem exceptBind_ok {α β : Type} (a : α) (f : α → Except Unit β) :
    (Except.ok a >>= f) = f a := rfl

theorem mapM_check_ok (valid : String → Bool) (l : List String) (hv : ∀ x ∈ l, valid x) :
    (l.mapM fun x => if valid x then Except.ok x else (Except.error () : Except Unit String))
      = Except.ok l := by
  induction l with
  | nil => rfl
  | cons x xs ih =>
    have hx : valid x := hv x (by simp)
    rw [List.mapM_cons]
    simp only [if_pos hx, ih fun y hy => hv y (by simp [hy])]
    rfl

theorem compileWeightedRegexMapE_ok (valid : String → Bool)
    (obj : Option (List (String × Option Int))) (hv : ∀ pw ∈ obj.getD [], valid pw.1) :
    compileWeightedRegexMapE valid obj = Except.ok (compileWeightedRegexMap obj) := by
  unfold compileWeightedRegexMapE compileWeightedRegexMap
  exact mapM_if_ok (fun pw => valid pw.1)
    (fun pw => (⟨pw.1, numOr0 pw.2⟩ : WeightedRe)) (obj.getD []) hv

theorem guideStepE_ok (valid : String → Bool) (test : String → String → Bool)
    (text : String) (files : List String) (acc : List String × Int × List Hit)
    (m : GuideMapping) (hk : ∀ k ∈ m.keywords.getD [], valid k)
    (hp : ∀ p ∈ m.paths.getD [], valid p) :
    guideStepE valid test text files acc m = Except.ok (guideStep test text files acc m) := by
  rw [guideStepE, mapM_check_ok valid _ hk, exceptBind_ok, mapM_check_ok valid _ hp,
    exceptBind_ok]
  rfl

theorem foldlM_guideStepE_ok (valid : String → Bool) (test : String → String → Bool)
    (text : String) (files : List String) (ms : List GuideMapping)
    (hv : ∀ m ∈ ms, (∀ k ∈ m.keywords.getD [], valid k) ∧ (∀ p ∈ m.paths.getD [], valid p)) :
    ∀ acc, ms.foldlM (guideStepE valid test text files) acc
      = Except.ok (ms.foldl (guideStep test text files) acc) := by
  induction ms with
  | nil => intro acc; rfl
  | cons m ms ih =>
    intro acc
    obtain ⟨hk, hp⟩ := hv m (by simp)
    rw [List.foldlM_cons, guideStepE_ok valid test text files acc m hk hp]
    simp only [List.foldl_cons]
    rw [exceptBind_ok]
    exact ih (fun m' hm' => hv m' (by simp [hm'])) _

/-- When every configured pattern compiles, the fallible engine agrees with
the total one. -/
theorem scoreOneE_ok (valid : String → Bool) (test : String → String → Bool)
    (item : Item) (rules : Rules) (hv : allValid valid rules) :
    scoreOneE valid test item rules = Except.ok (scoreOne test item rules) := by
  obtain ⟨h1, h2, h3, h4⟩ := hv
  have hg := foldlM_guideStepE_ok valid test (combinedText item) item.files _ h4
  simp only [scoreOneE, strongScanE_ok valid test _ _ h1,
    compileWeightedRegexMapE_ok valid _ h2, compileWeightedRegexMapE_ok valid _ h3,
    exceptBind_ok, hg]
  rfl

/-! ### Further helper lemmas -/

theorem strongScan_first (test : String → String → Bool) (text : String) :
    ∀ (l₁ : List String) (p : String) (l₂ : List String),
      (∀ q ∈ l₁, test q text = false) → test p text = true →
      strongScan test text (l₁ ++ p :: l₂) = p := by
  intro l₁
  induction l₁ with
  | nil =>
    intro p l₂ _ hp
    simp [strongScan, hp]
  | cons q qs ih =>
    intro p l₂ hpre hp
    have hq : test q text = false := hpre q (by simp)
    simp only [List.cons_append, strongScan, hq, Bool.false_eq_true, if_false]
    exact ih p l₂ (fun r hr => hpre r (by simp [hr])) hp

theorem filterMap_if_eq_filter_map {α β : Type} (c : α → Bool) (g : α → β) (l : List α) :
    (l.filterMap fun x => if c x then some (g x) else none) = (l.filter c).map g := by
  induction l with
  | nil => rfl
  | cons x xs ih =>
    by_cases hx : c x <;> simp [List.filterMap_cons, List.filter_cons, hx, ih]

theorem sum_map_constInt {α : Type} (w : Int) (l : List α) :
    (l.map fun _ => w).sum = w * (l.length : Int) := by
  induction l with
  | nil => simp
  | cons x xs ih => simp [ih]; ring

theorem sumW_pathHitsOfOne (test : String → String → Bool) (files : List String)
    (r : WeightedRe) :
    sumW (pathHitsOfOne test files r)
      = r.weight * ((files.filter fun f => test r.pattern f).length : Int) := by
  rw [pathHitsOfOne, sumW, List.map_map]
  exact sum_map_constInt r.weight _

theorem sumW_pathHitsOf (test : String → String → Bool) (files : List String)
    (rs : List WeightedRe) :
    sumW (pathHitsOf test files rs)
      = (rs.map fun r =>
          r.weight * ((files.filter fun f => test r.pattern f).length : Int)).sum := by
  induction rs with
  | nil => simp [pathHitsOf, sumW]
  | cons r rs ih =>
    simp only [pathHitsOf, List.flatMap_cons, sumW_append, List.map_cons, List.sum_cons]
    rw [sumW_pathHitsOfOne]
    exact congrArg _ ih

theorem textHitsOf_eq_filter (test : String → String → Bool) (text : String)
    (rs : List WeightedRe) :
    textHitsOf test text rs
      = ((rs.filter fun r => test r.pattern text).map
          fun r => (⟨HitType.text, r.pattern, none, r.weight⟩ : Hit)) := by
  rw [textHitsOf]
  exact filterMap_if_eq_filter_map (fun r => test r.pattern text)
    (fun r => (⟨HitType.text, r.pattern, none, r.weight⟩ : Hit)) rs

theorem sumW_filter_nonzero (hs : List Hit) :
    sumW hs = sumW (hs.filter fun h => decide (h.w ≠ 0)) := by
  induction hs with
  | nil => rfl
  | cons h hs ih =>
    by_cases hw : h.w = 0
    · simp [sumW, List.filter_cons, hw] at ih ⊢
      exact ih
    · simp [sumW, List.filter_cons, hw] at ih ⊢
      exact ih

theorem guideHitsOf_all_zero (test : String → String → Bool) (text : String)
    (files : List String) (ms : List GuideMapping)
    (hz : ∀ m ∈ ms, numOr0 m.scoreBonus = 0) :
    guideHitsOf test text files ms = [] := by
  rw [guideHitsOf, List.filterMap_eq_nil_iff]
  intro m hm
  have h0 : numOr0 m.scoreBonus = 0 := hz m hm
  by_cases hf : guideFires test text files m
  · rw [if_pos hf, if_neg (by simp [h0])]
  · rw [if_neg hf]

/-! ### The claims -/

/-- C1: for every candidate item and ruleset, `adopt` equals (a strong-signal
match is present, i.e. `strongHit` is nonempty) OR (score ≥ decision
threshold); a strong-signal match adopts however negative the score is, and
with no strong-signal patterns and a score below the threshold, `adopt` is
false. -/
theorem C1_adoption_decision (test : String → String → Bool) (item : Item) (rules : Rules) :
    ((scoreOne test item rules).adopt
        = (((scoreOne test item rules).strongHit != "")
            || decide (thresholdOf rules ≤ (scoreOne test item rules).score)))
    ∧ ((scoreOne test item rules).strongHit ≠ "" → (scoreOne test item rules).adopt = true)
    ∧ (rules.strongSignals.patterns.getD [] = [] →
        (scoreOne test item rules).score < thresholdOf rules →
        (scoreOne test item rules).adopt = false) := by
  refine ⟨scoreOne_adopt test item rules, ?_, ?_⟩
  · intro h
    rw [scoreOne_adopt]
    simp [h]
  · intro hp hlt
    have hs : (scoreOne test item rules).strongHit = "" := by
      rw [scoreOne_strongHit, hp]
      rfl
    rw [scoreOne_adopt, hs]
    simp [decide_eq_false (not_le.mpr hlt)]

theorem C1_witness : (scoreOne testF itemW rulesEmptySig).adopt = false :=
  (C1_adoption_decision testF itemW rulesEmptySig).2.2 rfl (by decide)

/-- C2: for every candidate item and ruleset, the returned score is exactly
the sum of the `w` fields of the returned hit trail. -/
theorem C2_score_is_sum_of_hits (test : String → String → Bool) (item : Item)
    (rules : Rules) :
    (scoreOne test item rules).score = sumW ((scoreOne test item rules).hits) := by
  rw [scoreOne_score, scoreOne_hits]

/-- C6: the strong-signal scan takes the patterns in declared order and
records the first matching one; the suffix `l₂` after the first match and
the matcher's behavior on it are arbitrary, so patterns after the first
match cannot influence the result (the loop `break`s there). -/
theorem C6_strong_first_match_wins (test : String → String → Bool) (item : Item)
    (rules : Rules) (l₁ : List String) (p : String) (l₂ : List String)
    (hpats : rules.strongSignals.patterns.getD [] = l₁ ++ p :: l₂)
    (hpre : ∀ q ∈ l₁, test q (combinedText item) = false)
    (hp : test p (combinedText item) = true) :
    (scoreOne test item rules).strongHit = p := by
  rw [scoreOne_strongHit, hpats]
  exact strongScan_first test (combinedText item) l₁ p l₂ hpre hp

theorem C6_witness : (scoreOne testEqB itemW rulesABC).strongHit = "b" :=
  C6_strong_first_match_wins testEqB itemW rulesABC ["a"] "b" ["c"] rfl
    (by decide) (by decide)

/-- C9: the engine encodes "no strong-signal match" as the empty string, so
when the empty-string pattern (which, as a JS regex, matches every text) is
the first matching strong-signal pattern, the recorded result `""` is
indistinguishable from no match and adoption falls back to the score
threshold alone. -/
theorem C9_empty_pattern_not_adopting (test : String → String → Bool) (item : Item)
    (rules : Rules) (l₁ l₂ : List String)
    (hpats : rules.strongSignals.patterns.getD [] = l₁ ++ "" :: l₂)
    (hpre : ∀ q ∈ l₁, test q (combinedText item) = false)
    (hempty : test "" (combinedText item) = true) :
    (scoreOne test item rules).strongHit = ""
    ∧ (scoreOne test item rules).adopt
        = decide (thresholdOf rules ≤ (scoreOne test item rules).score) := by
  have hs : (scoreOne test item rules).strongHit = "" := by
    rw [scoreOne_strongHit, hpats]
    exact strongScan_first test (combinedText item) l₁ "" l₂ hpre hempty
  refine ⟨hs, ?_⟩
  rw [scoreOne_adopt, hs]
  simp

theorem C9_witness :
    (scoreOne testEmptyPat itemW rulesEmptyPat).strongHit = ""
    ∧ (scoreOne testEmptyPat itemW rulesEmptyPat).adopt
        = decide (thresholdOf rulesEmptyPat
            ≤ (scoreOne testEmptyPat itemW rulesEmptyPat).score) :=
  C9_empty_pattern_not_adopting testEmptyPat itemW rulesEmptyPat [] [] rfl
    (by simp) (by decide)

/-- C4: the `path`-kind hits of an evaluation are exactly, per `pathWeights`
entry in order, one hit per file of the item's list whose path the entry's
pattern matches (duplicate files are kept and matched independently), each
hit carrying the matched file; the total path contribution is, per entry,
the weight times the number of matching occurrences. -/
theorem C4_path_hit_per_matching_file (test : String → String → Bool) (item : Item)
    (rules : Rules) :
    ((scoreOne test item rules).hits.filter (fun h => h.type == HitType.path)
        = pathHitsOf test item.files (compileWeightedRegexMap rules.scoring.pathWeights))
    ∧ (sumW ((scoreOne test item rules).hits.filter (fun h => h.type == HitType.path))
        = ((compileWeightedRegexMap rules.scoring.pathWeights).map fun r =>
            r.weight * ((item.files.filter fun f => test r.pattern f).length : Int)).sum) := by
  have h1 : (scoreOne test item rules).hits.filter (fun h => h.type == HitType.path)
      = pathHitsOf test item.files (compileWeightedRegexMap rules.scoring.pathWeights) := by
    rw [scoreOne_hits, hitsOf_filter_path]
  exact ⟨h1, by rw [h1, sumW_pathHitsOf]⟩

/-- C5: the `text`-kind hits of an evaluation are exactly one hit per
`textKeywordWeights` entry whose pattern matches the combined title+body
text — the source tests each compiled entry exactly once with a boolean
`re.test(text)`, so multiple occurrences inside the text cannot contribute
more than once; the text contribution is the sum of the matching entries'
weights, each taken exactly once. -/
theorem C5_text_single_contribution (test : String → String → Bool) (item : Item)
    (rules : Rules) :
    ((scoreOne test item rules).hits.filter (fun h => h.type == HitType.text)
        = ((compileWeightedRegexMap rules.scoring.textKeywordWeights).filter
            (fun r => test r.pattern (combinedText item))).map
            (fun r => (⟨HitType.text, r.pattern, none, r.weight⟩ : Hit)))
    ∧ (((scoreOne test item rules).hits.filter (fun h => h.type == HitType.text)).length
        = ((compileWeightedRegexMap rules.scoring.textKeywordWeights).filter
            (fun r => test r.pattern (combinedText item))).length)
    ∧ (sumW ((scoreOne test item rules).hits.filter (fun h => h.type == HitType.text))
        = (((compileWeightedRegexMap rules.scoring.textKeywordWeights).filter
            (fun r => test r.pattern (combinedText item))).map fun r => r.weight).sum) := by
  have h1 : (scoreOne test item rules).hits.filter (fun h => h.type == HitType.text)
      = ((compileWeightedRegexMap rules.scoring.textKeywordWeights).filter
          (fun r => test r.pattern (combinedText item))).map
          (fun r => (⟨HitType.text, r.pattern, none, r.weight⟩ : Hit)) := by
    rw [scoreOne_hits, hitsOf_filter_text, textHitsOf_eq_filter]
  refine ⟨h1, by rw [h1, List.length_map], ?_⟩
  rw [h1, sumW, List.map_map]
  rfl

theorem no_label_hit_of_zero (test : String → String → Bool) (item : Item)
    (rules : Rules) (l : String)
    (hzero : labelWeight (rules.scoring.labelWeights.getD []) l = 0) :
    ∀ h ∈ (scoreOne test item rules).hits, ¬(h.type = HitType.label ∧ h.what = l) := by
  intro h hmem ⟨hty, hwhat⟩
  rw [scoreOne_hits, hitsOf] at hmem
  rcases List.mem_append.mp hmem with hmem | hguide
  rcases List.mem_append.mp hmem with hmem | hpath
  rcases List.mem_append.mp hmem with hlab | htext
  · simp only [labelHitsOf, List.mem_filterMap] at hlab
    obtain ⟨l', _, he⟩ := hlab
    by_cases hc : labelWeight (rules.scoring.labelWeights.getD []) l' ≠ 0
    · rw [if_pos hc] at he
      cases he
      have hll : l' = l := hwhat
      exact hc (by rw [hll]; exact hzero)
    · rw [if_neg hc] at he
      simp at he
  · have := textHitsOf_types _ _ _ h htext
    rw [hty] at this
    cases this
  · have := pathHitsOf_types _ _ _ h hpath
    rw [hty] at this
    cases this
  · have := guideHitsOf_types _ _ _ _ h hguide
    rw [hty] at this
    cases this

/-- C7: every label of the item with nonzero looked-up weight produces
exactly one `label`-kind hit with that weight, in label order; a label
absent from `labelWeights` has weight 0, and a label whose weight is 0
never appears in the hit trail. -/
theorem C7_zero_label_never_recorded (test : String → String → Bool) (item : Item)
    (rules : Rules) :
    ((scoreOne test item rules).hits.filter (fun h => h.type == HitType.label)
        = labelHitsOf (rules.scoring.labelWeights.getD []) item.labels)
    ∧ (∀ l, List.lookup l (rules.scoring.labelWeights.getD []) = none →
        labelWeight (rules.scoring.labelWeights.getD []) l = 0)
    ∧ (∀ l, labelWeight (rules.scoring.labelWeights.getD []) l = 0 →
        ∀ h ∈ (scoreOne test item rules).hits,
          ¬(h.type = HitType.label ∧ h.what = l)) := by
  refine ⟨by rw [scoreOne_hits, hitsOf_filter_label], ?_,
    fun l hz => no_label_hit_of_zero test item rules l hz⟩
  intro l hnone
  rw [labelWeight, hnone]
  rfl

theorem C7_witness :
    ¬((⟨HitType.label, "x", none, 2⟩ : Hit).type = HitType.label
      ∧ (⟨HitType.label, "x", none, 2⟩ : Hit).what = "security") :=
  (C7_zero_label_never_recorded testT itemW7 rulesZeroW).2.2 "security" (by decide)
    ⟨HitType.label, "x", none, 2⟩ (by decide)

/-- C8: each of the five top-level sections missing from the raw document
loads to the documented default (`window` = hours/24, threshold 8, empty
pattern list, empty weight maps, empty guide mapping); the fully missing
document evaluates identically to the spec's explicitly empty ruleset, and
missing nested maps/sequences evaluate identically to explicitly empty
ones. -/
theorem C8_default_equivalence (test : String → String → Bool) (item : Item)
    (raw : RawRules) :
    (raw.window = none → (readRules raw).window = ⟨"hours", some 24⟩)
    ∧ (raw.decision = none → thresholdOf (readRules raw) = 8)
    ∧ (raw.strongSignals = none → (readRules raw).strongSignals = ⟨some []⟩)
    ∧ (raw.scoring = none → (readRules raw).scoring = ⟨some [], some [], some []⟩)
    ∧ (raw.securityGuideMapping = none → (readRules raw).securityGuideMapping = some [])
    ∧ (scoreOne test item (readRules emptyRaw) = scoreOne test item specExplicitEmptyRules)
    ∧ (∀ w d, scoreOne test item ⟨w, d, ⟨none⟩, ⟨none, none, none⟩, none⟩
        = scoreOne test item ⟨w, d, ⟨some []⟩, ⟨some [], some [], some []⟩, some []⟩) := by
  refine ⟨?_, ?_, ?_, ?_, ?_, rfl, fun w d => rfl⟩ <;>
    intro h <;> simp [readRules, thresholdOf, h]

theorem C8_witness : (readRules emptyRaw).window = ⟨"hours", some 24⟩ :=
  (C8_default_equivalence testT itemW emptyRaw).1 rfl

/-- C10: a matching `textKeywordWeights` or `pathWeights` entry whose weight
coerces to 0 (absent or unparsable included) still pushes a hit record with
weight 0, and zero-weight hits leave the score unchanged (the score equals
the sum over the nonzero-weight hits alone); by contrast a zero label
weight records nothing, and when every guide `scoreBonus` coerces to 0 no
`guide`-kind hit is recorded at all. -/
theorem C10_zero_weight_asymmetry (test : String → String → Bool) (item : Item)
    (rules : Rules) :
    (∀ p w₀, (p, w₀) ∈ rules.scoring.textKeywordWeights.getD [] → numOr0 w₀ = 0 →
        test p (combinedText item) = true →
        (⟨HitType.text, p, none, 0⟩ : Hit) ∈ (scoreOne test item rules).hits)
    ∧ (∀ p w₀ f, (p, w₀) ∈ rules.scoring.pathWeights.getD [] → numOr0 w₀ = 0 →
        f ∈ item.files → test p f = true →
        (⟨HitType.path, p, some f, 0⟩ : Hit) ∈ (scoreOne test item rules).hits)
    ∧ ((scoreOne test item rules).score
        = sumW (((scoreOne test item rules).hits).filter fun h => decide (h.w ≠ 0)))
    ∧ (∀ l, labelWeight (rules.scoring.labelWeights.getD []) l = 0 →
        ∀ h ∈ (scoreOne test item rules).hits,
          ¬(h.type = HitType.label ∧ h.what = l))
    ∧ ((∀ m ∈ rules.securityGuideMapping.getD [], numOr0 m.scoreBonus = 0) →
        ∀ h ∈ (scoreOne test item rules).hits, h.type ≠ HitType.guide) := by
  refine ⟨?_, ?_, ?_, fun l hz => no_label_hit_of_zero test item rules l hz, ?_⟩
  · intro p w₀ hmem hz ht
    rw [scoreOne_hits, hitsOf]
    refine List.mem_append.mpr (Or.inl (List.mem_append.mpr (Or.inl
      (List.mem_append.mpr (Or.inr ?_)))))
    rw [textHitsOf]
    refine List.mem_filterMap.mpr ⟨⟨p, 0⟩, ?_, ?_⟩
    · rw [compileWeightedRegexMap]
      have he : (⟨p, numOr0 w₀⟩ : WeightedRe) = ⟨p, 0⟩ := by rw [hz]
      exact he ▸ List.mem_map_of_mem _ hmem
    · rw [if_pos ht]
  · intro p w₀ f hmem hz hf ht
    rw [scoreOne_hits, hitsOf]
    refine List.mem_append.mpr (Or.inl (List.mem_append.mpr (Or.inr ?_)))
    rw [pathHitsOf]
    refine List.mem_flatMap.mpr ⟨⟨p, 0⟩, ?_, ?_⟩
    · rw [compileWeightedRegexMap]
      have he : (⟨p, numOr0 w₀⟩ : WeightedRe) = ⟨p, 0⟩ := by rw [hz]
      exact he ▸ List.mem_map_of_mem _ hmem
    · rw [pathHitsOfOne]
      exact List.mem_map_of_mem _ (List.mem_filter.mpr ⟨hf, ht⟩)
  · rw [scoreOne_score, scoreOne_hits]
    exact sumW_filter_nonzero _
  · intro hz h hmem hty
    rw [scoreOne_hits, hitsOf] at hmem
    rcases List.mem_append.mp hmem with hmem | hguide
    · rcases List.mem_append.mp hmem with hmem | hpath
      rcases List.mem_append.mp hmem with hlab | htext
      · have := labelHitsOf_types _ _ h hlab
        rw [hty] at this
        cases this
      · have := textHitsOf_types _ _ _ h htext
        rw [hty] at this
        cases this
      · have := pathHitsOf_types _ _ _ h hpath
        rw [hty] at this
        cases this
    · rw [guideHitsOf_all_zero _ _ _ _ hz] at hguide
      cases hguide

theorem C10_witness :
    (⟨HitType.text, "CVE", none, 0⟩ : Hit) ∈ (scoreOne testT itemW rulesZeroW).hits :=
  (C10_zero_weight_asymmetry testT itemW rulesZeroW).1 "CVE" (some 0) (by decide) rfl rfl

/-- C3 as stated is false: with the malformed pattern `"("` configured as a
strong-signal pattern behind a matching one, the run does not abort at all —
the first pattern matches, the loop `break`s before compiling `"("`, the
item is scored and adopted, and the run completes successfully. -/
theorem C3_counterexample :
    validNoParen "(" = false
    ∧ "(" ∈ rulesShadowedBad.strongSignals.patterns.getD []
    ∧ run validNoParen testT rulesShadowedBad [itemW]
        = Except.ok [⟨true, 0, "CVE", [], []⟩] :=
  ⟨rfl, by decide, rfl⟩

/-- C3 (amended): pattern compilation is lazy — per item, during evaluation.
A malformed pattern reached while evaluating an item makes that evaluation
throw, and the exception aborts the whole run fatally with no partial
output; an item that evaluates cleanly contributes exactly its adopted
decision; and when every configured pattern compiles, evaluation never
throws and agrees with the total engine.  A malformed pattern that is never
reached (no items, or a strong-signal `break` before it) does not abort the
run. -/
theorem C3_lazy_compile_abort (valid : String → Bool) (test : String → String → Bool)
    (item : Item) (rest : List Item) (rules : Rules) :
    (scoreOneE valid test item rules = Except.error () →
      run valid test rules (item :: rest) = Except.error ())
    ∧ (∀ d, scoreOneE valid test item rules = Except.ok d →
        run valid test rules (item :: rest)
          = (run valid test rules rest).map fun ds => if d.adopt then d :: ds else ds)
    ∧ (allValid valid rules →
        scoreOneE valid test item rules = Except.ok (scoreOne test item rules)) := by
  refine ⟨?_, ?_, scoreOneE_ok valid test item rules⟩
  · intro he
    simp only [run, he]
    rfl
  · intro d hd
    simp only [run, hd, exceptBind_ok]
    cases hrun : run valid test rules rest <;> rfl

theorem C3_witness : run validNoBracket testT rulesBadText [itemW] = Except.error () :=
  (C3_lazy_compile_abort validNoBracket testT itemW [] rulesBadText).1 rfl

end RailsSecurityDigest
